import Mathlib

/-!
Verification of the in-memory ephemeral-email store (`apiMemoryStore.js`) and
the batched custom-domain usage counter (`customDomainRateLimit.js`).

The JavaScript modules are shallowly embedded: JS `Map`s become association
lists over `String` keys, wall-clock reads (`Date.now()`, `new Date()`,
`toDateString()`, `toISOString()`) become explicit parameters, database
queries become `Except`-valued inputs, and `Math.random()` draws become
explicit index / boolean parameters.  Every function mirrors the control flow
of its JS source line by line.
-/

namespace Spec2Proof

/-! ### JS `Map` model (string-keyed association list) -/

def JsMap.find {α : Type} (m : List (String × α)) (k : String) : Option α :=
  match m with
  | [] => none
  | p :: rest => if p.1 = k then some p.2 else JsMap.find rest k

def JsMap.set {α : Type} (m : List (String × α)) (k : String) (v : α) :
    List (String × α) :=
  match m with
  | [] => [(k, v)]
  | p :: rest => if p.1 = k then (k, v) :: rest else p :: JsMap.set rest k v

def JsMap.del {α : Type} (m : List (String × α)) (k : String) :
    List (String × α) :=
  m.filter (fun p => p.1 != k)

/-- JS `Set` of strings: `add` appends if absent (insertion order). -/
def setAdd (s : List String) (x : String) : List String :=
  if x ∈ s then s else s ++ [x]

/-- JS `Set.delete`. -/
def setDel (s : List String) (x : String) : List String :=
  s.filter (fun y => y != x)

/-! ### apiMemoryStore.js embedding

Times are milliseconds since the epoch, modelled as `Int` (matching JS
number subtraction semantics in TTL comparisons).
-/

/-- The three time tiers of `FREE_LIMITS`. -/
inductive TimeTier where
  | t10min
  | t1hour
  | t1day
deriving DecidableEq

/-- `FREE_LIMITS[tier].daily`. -/
def freeLimit : TimeTier → Nat
  | .t10min => 20
  | .t1hour => 10
  | .t1day => 5

/-- One usage-counter record `{ '10min': _, '1hour': _, '1day': _ }`. -/
structure Usage where
  m10 : Nat
  h1 : Nat
  d1 : Nat
deriving DecidableEq

def Usage.get (u : Usage) : TimeTier → Nat
  | .t10min => u.m10
  | .t1hour => u.h1
  | .t1day => u.d1

def Usage.inc (u : Usage) : TimeTier → Usage
  | .t10min => { u with m10 := u.m10 + 1 }
  | .t1hour => { u with h1 := u.h1 + 1 }
  | .t1day => { u with d1 := u.d1 + 1 }

/-- A stored message after the `received_at` default was applied. -/
structure StoredMessage where
  subject : String
  received_at : String
deriving DecidableEq

/-- An inbound message as passed to `addApiEmailMessage`. -/
structure MessageData where
  subject : String
  received_at : Option String
deriving DecidableEq

/-- `emailData` as built by `createApiEmail`. -/
structure EmailData where
  id : String
  email : String
  userId : String
  timeTier : TimeTier
  createdAt : Int
  expiresAt : Int
  messages : List StoredMessage
  isApiEmail : Bool
  domain : String
  isCustomDomain : Bool
deriving DecidableEq

/-- The global `domainsCache` (public-domain list, 30-minute TTL). -/
structure DomainsCache where
  domains : List String
  lastUpdate : Int
deriving DecidableEq

/-- One entry of `userDomainsCache`. -/
structure UserDomainsEntry where
  domains : List String
  expiresAt : Int
deriving DecidableEq

/-- The module-level mutable state of apiMemoryStore.js. -/
structure ApiStoreState where
  apiEmailStore : List (String × EmailData)
  userApiEmailIndex : List (String × List String)
  usageCounters : List (String × Usage)
  emailToApiUserMap : List (String × (String × String))
  domainsCache : DomainsCache
  userDomainsCache : List (String × UserDomainsEntry)
deriving DecidableEq

/-- `domainsCache.TTL` = 30 minutes. -/
def domainsTTL : Int := 30 * 60 * 1000

/-- Environment of one `createApiEmail` call: the UUID, the random local
part, the clock readings, the database query results and the random pick. -/
structure CreateEnv where
  emailId : String
  localPart : String
  nowMs : Int
  today : String
  publicDomainsDb : Except Unit (List String)
  userDomainsDb : Except Unit (List String)
  randIdx : Nat

/-- `domains[Math.floor(Math.random() * domains.length)]`, with the random
draw supplied as an index reduced modulo the length. -/
def pickDomain (l : List String) (r : Nat) : String :=
  l.getD (r % l.length) "boomlify.com"

/-- `calculateExpiry`. -/
def calculateExpiry (tt : TimeTier) (nowMs : Int) : Int :=
  match tt with
  | .t10min => nowMs + 10 * 60 * 1000
  | .t1hour => nowMs + 60 * 60 * 1000
  | .t1day => nowMs + 24 * 60 * 60 * 1000

/-- `usageCounters` key: userId-today. -/
def usageKey (userId today : String) : String :=
  userId ++ "-" ++ today

/-- Current count of a tier for (user, day), defaulting to the zero record. -/
def tierCount (st : ApiStoreState) (userId today : String) (tt : TimeTier) : Nat :=
  Usage.get ((JsMap.find st.usageCounters (usageKey userId today)).getD ⟨0, 0, 0⟩) tt

/-- `checkDailyLimit`: `usage[timeTier] < FREE_LIMITS[timeTier].daily`. -/
def checkDailyLimit (st : ApiStoreState) (userId : String) (tt : TimeTier)
    (today : String) : Bool :=
  decide (tierCount st userId today tt < freeLimit tt)

/-- `updateUsageCounter`. -/
def updateUsageCounter (st : ApiStoreState) (userId : String) (tt : TimeTier)
    (today : String) : ApiStoreState :=
  let key := usageKey userId today
  let usage := (JsMap.find st.usageCounters key).getD ⟨0, 0, 0⟩
  { st with usageCounters := JsMap.set st.usageCounters key (usage.inc tt) }

/-- `getRandomDomain`: the whole body is wrapped in try/catch, so a database
failure during refresh jumps straight to `return 'boomlify.com'`. -/
def getRandomDomain (st : ApiStoreState) (nowMs : Int)
    (db : Except Unit (List String)) (ridx : Nat) : String × ApiStoreState :=
  if domainsTTL < nowMs - st.domainsCache.lastUpdate ∨ st.domainsCache.domains = [] then
    match db with
    | .error _ => ("boomlify.com", st)
    | .ok ds =>
      let st1 := { st with domainsCache := { domains := ds, lastUpdate := nowMs } }
      if ds = [] then ("boomlify.com", st1) else (pickDomain ds ridx, st1)
  else
    if st.domainsCache.domains = [] then ("boomlify.com", st)
    else (pickDomain st.domainsCache.domains ridx, st)

/-- Refresh path of `validateUserDomain` (cache miss or expired); the
try/catch returns `null` on query failure, leaving the cache untouched. -/
def validateRefresh (st : ApiStoreState) (env : CreateEnv) (userId domain : String) :
    Option String × ApiStoreState :=
  match env.userDomainsDb with
  | .ok domains =>
    let entry : UserDomainsEntry := { domains := domains, expiresAt := env.nowMs + 5 * 60 * 1000 }
    let st1 := { st with userDomainsCache := JsMap.set st.userDomainsCache userId entry }
    (if domain ∈ domains then some domain else none, st1)
  | .error _ => (none, st)

/-- `validateUserDomain`: serve from the per-user cache while
`cached.expiresAt > Date.now()`, otherwise refresh. -/
def validateUserDomain (st : ApiStoreState) (env : CreateEnv) (userId domain : String) :
    Option String × ApiStoreState :=
  match JsMap.find st.userDomainsCache userId with
  | some cached =>
    if env.nowMs < cached.expiresAt then
      (if domain ∈ cached.domains then some domain else none, st)
    else validateRefresh st env userId domain
  | none => validateRefresh st env userId domain

/-- Error taxonomy of `createApiEmail`: the two `throw new Error(...)` sites. -/
inductive CreateError where
  | quotaExceeded
  | domainInvalid
deriving DecidableEq

/-- Domain-resolution part of `createApiEmail`: verified custom domain first,
then the public-domain fallback (cache check, one refresh attempt with the
error swallowed, recheck), else `getRandomDomain` when no domain was asked. -/
def resolveDomain (st : ApiStoreState) (env : CreateEnv) (userId : String)
    (customDomain : Option String) : Except CreateError (String × ApiStoreState) :=
  match customDomain with
  | some cd =>
    match validateUserDomain st env userId cd with
    | (some d, st1) => .ok (d, st1)
    | (none, st1) =>
      let st2 :=
        if cd ∈ st1.domainsCache.domains then st1
        else
          match env.publicDomainsDb with
          | .ok ds => { st1 with domainsCache := { domains := ds, lastUpdate := env.nowMs } }
          | .error _ => st1
      if cd ∈ st2.domainsCache.domains then .ok (cd, st2)
      else .error .domainInvalid
  | none =>
    let r := getRandomDomain st env.nowMs env.publicDomainsDb env.randIdx
    .ok (r.1, r.2)

/-- Insertion part of `createApiEmail`: build `emailData`, store it, index by
user, add the address mapping (a plain `Map.set`, overwriting any existing
entry for the same address), and bump the usage counter. -/
def insertEmail (st : ApiStoreState) (env : CreateEnv) (userId : String)
    (tt : TimeTier) (customDomain : Option String) (domain : String) :
    EmailData × ApiStoreState :=
  let email := env.localPart ++ "@" ++ domain
  let emailData : EmailData := {
    id := env.emailId
    email := email
    userId := userId
    timeTier := tt
    createdAt := env.nowMs
    expiresAt := calculateExpiry tt env.nowMs
    messages := []
    isApiEmail := true
    domain := domain
    isCustomDomain := customDomain.isSome }
  let st2 := { st with apiEmailStore := JsMap.set st.apiEmailStore env.emailId emailData }
  let newIdx := setAdd ((JsMap.find st2.userApiEmailIndex userId).getD []) env.emailId
  let st3 := { st2 with userApiEmailIndex := JsMap.set st2.userApiEmailIndex userId newIdx }
  let st4 := { st3 with emailToApiUserMap := JsMap.set st3.emailToApiUserMap email (userId, env.emailId) }
  (emailData, updateUsageCounter st4 userId tt env.today)

/-- `createApiEmail`. -/
def createApiEmail (st : ApiStoreState) (env : CreateEnv) (userId : String)
    (tt : TimeTier) (customDomain : Option String) (userTier : String) :
    Except CreateError (EmailData × ApiStoreState) :=
  if userTier ≠ "unlimited" ∧ userTier ≠ "enterprise" ∧
      checkDailyLimit st userId tt env.today = false then
    .error .quotaExceeded
  else
    match resolveDomain st env userId customDomain with
    | .error e => .error e
    | .ok (domain, st1) => .ok (insertEmail st1 env userId tt customDomain domain)

/-- The three-line removal shared by `getApiEmail`, `deleteApiEmail` and the
sweeps: delete from the store, from the owner index, and from the address
map. -/
def cleanupEmail (st : ApiStoreState) (emailId userId : String)
    (email : EmailData) : ApiStoreState :=
  let st1 := { st with apiEmailStore := JsMap.del st.apiEmailStore emailId }
  let st2 :=
    match JsMap.find st1.userApiEmailIndex userId with
    | some s => { st1 with userApiEmailIndex := JsMap.set st1.userApiEmailIndex userId (setDel s emailId) }
    | none => st1
  { st2 with emailToApiUserMap := JsMap.del st2.emailToApiUserMap email.email }

/-- `getApiEmail`: null if absent or not owned; lazy cleanup then null if
`expiresAt <= now`; otherwise the record. -/
def getApiEmail (st : ApiStoreState) (emailId userId : String) (nowMs : Int) :
    Option EmailData × ApiStoreState :=
  match JsMap.find st.apiEmailStore emailId with
  | none => (none, st)
  | some email =>
    if email.userId ≠ userId then (none, st)
    else if email.expiresAt ≤ nowMs then (none, cleanupEmail st emailId userId email)
    else (some email, st)

/-- `deleteApiEmail`. -/
def deleteApiEmail (st : ApiStoreState) (emailId userId : String) :
    Bool × ApiStoreState :=
  match JsMap.find st.apiEmailStore emailId with
  | none => (false, st)
  | some email =>
    if email.userId ≠ userId then (false, st)
    else (true, cleanupEmail st emailId userId email)

/-- `{...messageData, received_at: messageData.received_at || now}` — an
absent or empty (falsy) `received_at` is replaced by the current time. -/
def storeMessage (msg : MessageData) (nowIso : String) : StoredMessage :=
  { subject := msg.subject
    received_at := match msg.received_at with
      | some s => if s = "" then nowIso else s
      | none => nowIso }

/-- `addApiEmailMessage`: no-op on missing/expired, else unshift and truncate
the list to 50 entries. -/
def addApiEmailMessage (st : ApiStoreState) (emailId : String) (msg : MessageData)
    (nowIso : String) (nowMs : Int) : Bool × ApiStoreState :=
  match JsMap.find st.apiEmailStore emailId with
  | none => (false, st)
  | some email =>
    if email.expiresAt ≤ nowMs then (false, st)
    else
      let msgs0 := storeMessage msg nowIso :: email.messages
      let msgs := if 50 < msgs0.length then msgs0.take 50 else msgs0
      let store' := JsMap.set st.apiEmailStore emailId { email with messages := msgs }
      (true, { st with apiEmailStore := store' })

/-! ### customDomainRateLimit.js embedding (batched-flush version)

The claims cite the middle of the three concatenated module versions: the
one with `pendingOperations`, `addPendingOperation` and
`flushPendingOperations`.  Dates carry both the millisecond value
(`getTime`) and the `toDateString()` day string.
-/

structure JsDate where
  ms : Int
  day : String
deriving DecidableEq

/-- One entry of `customDomainUsageCache.users`. -/
structure UsageData where
  dailyCount : Int
  totalCount : Int
  lastReset : JsDate
  dirty : Bool
deriving DecidableEq

/-- One entry of `customDomainUsageCache.pendingOperations`. -/
structure PendingOp where
  dailyDelta : Int
  totalDelta : Int
  domainId : Option String
  resetDaily : Bool
deriving DecidableEq

structure RateLimitState where
  users : List (String × UsageData)
  pendingOperations : List (String × PendingOp)
deriving DecidableEq

/-- One row of the `custom_domains` table. -/
structure DomainRow where
  id : String
  user_id : String
  status : String
  daily_count : Int
  total_count : Int
  last_reset_date : String
deriving DecidableEq

structure Db where
  custom_domains : List DomainRow
deriving DecidableEq

/-- Default for `pendingOperations.get(userId) || { totalDelta: 0 }` (the
other fields read off the default object are `undefined`, i.e. falsy). -/
def emptyPendingOp : PendingOp :=
  { dailyDelta := 0, totalDelta := 0, domainId := none, resetDaily := false }

/-- The fresh record built in `resetDailyIfNeeded`:
`{ dailyCount: 0, totalCount: data?.totalCount || 0, lastReset: now, dirty: true }`. -/
def resetNewData (data : Option UsageData) (now : JsDate) : UsageData :=
  { dailyCount := 0
    totalCount := (data.map UsageData.totalCount).getD 0
    lastReset := now
    dirty := true }

/-- The pending operation written by `resetDailyIfNeeded`:
`dailyDelta := -data?.dailyCount || 0` and the existing `totalDelta` and
`domainId` are preserved. -/
def resetPendingOp (data : Option UsageData) (existing : PendingOp) : PendingOp :=
  { dailyDelta := (data.map (fun d => -d.dailyCount)).getD 0
    totalDelta := existing.totalDelta
    domainId := existing.domainId
    resetDaily := true }

/-- The reset branch of `resetDailyIfNeeded`. -/
def doDailyReset (st : RateLimitState) (userId : String) (now : JsDate)
    (data : Option UsageData) : UsageData × RateLimitState :=
  let newData := resetNewData data now
  let existing := (JsMap.find st.pendingOperations userId).getD emptyPendingOp
  let pending' := JsMap.set st.pendingOperations userId (resetPendingOp data existing)
  (newData, { users := JsMap.set st.users userId newData, pendingOperations := pending' })

/-- `resetDailyIfNeeded` (lines 262-291 of the cited file). -/
def resetDailyIfNeeded (st : RateLimitState) (userId : String) (now : JsDate) :
    UsageData × RateLimitState :=
  match JsMap.find st.users userId with
  | some d =>
    if d.lastReset.day = now.day then (d, st)
    else doDailyReset st userId now (some d)
  | none => doDailyReset st userId now none

/-- `addPendingOperation`: accumulate deltas, keep the first non-null
domain id, keep `resetDaily`. -/
def addPendingOperation (st : RateLimitState) (userId : String)
    (dailyDelta totalDelta : Int) (domainId : Option String) : RateLimitState :=
  let existing := (JsMap.find st.pendingOperations userId).getD emptyPendingOp
  let merged : PendingOp :=
    { dailyDelta := existing.dailyDelta + dailyDelta
      totalDelta := existing.totalDelta + totalDelta
      domainId := match domainId with
        | some d => some d
        | none => existing.domainId
      resetDaily := existing.resetDaily }
  { st with pendingOperations := JsMap.set st.pendingOperations userId merged }

/-- `SELECT id FROM custom_domains WHERE user_id = ? AND status = 'verified'`. -/
def verifiedDomainsOf (db : Db) (userId : String) : List DomainRow :=
  db.custom_domains.filter (fun r => r.user_id == userId && r.status == "verified")

/-- `UPDATE custom_domains SET daily_count = 0, last_reset_date = NOW()
WHERE user_id = ? AND status = 'verified'`. -/
def dbResetDaily (db : Db) (userId : String) (now : JsDate) : Db :=
  ⟨db.custom_domains.map (fun r =>
    if r.user_id == userId && r.status == "verified" then
      { r with daily_count := 0, last_reset_date := now.day }
    else r)⟩

/-- `UPDATE custom_domains SET daily_count = GREATEST(daily_count + ?, 0),
total_count = GREATEST(total_count + ?, 0) WHERE id = ?`. -/
def dbApplyDelta (db : Db) (targetDomainId : String) (dd td : Int) : Db :=
  ⟨db.custom_domains.map (fun r =>
    if r.id == targetDomainId then
      { r with daily_count := max (r.daily_count + dd) 0
               total_count := max (r.total_count + td) 0 }
    else r)⟩

/-- Per-user body of the flush loop: skip users with no verified domain;
optionally reset all their rows' daily counts; then apply the deltas to the
target row with `GREATEST(_, 0)` clamping. -/
def applyOp (db : Db) (userId : String) (op : PendingOp) (now : JsDate) : Db :=
  match verifiedDomainsOf db userId with
  | [] => db
  | d0 :: _ =>
    let targetDomainId := op.domainId.getD d0.id
    let db1 : Db := if op.resetDaily then dbResetDaily db userId now else db
    if op.dailyDelta ≠ 0 ∨ op.totalDelta ≠ 0 then
      dbApplyDelta db1 targetDomainId op.dailyDelta op.totalDelta
    else db1

/-- `flushPendingOperations`: early return on an empty queue; all updates run
inside one transaction; the queue is cleared only after a successful commit;
a failed commit rolls the database back and keeps the queue.  This variant
is the normal-operation run in which every per-user query succeeds; see
`flushPendingOperationsE` for the run with the per-operation try/catch made
explicit. -/
def flushPendingOperations (st : RateLimitState) (db : Db) (now : JsDate)
    (commitOk : Bool) : RateLimitState × Db :=
  if st.pendingOperations.isEmpty then (st, db)
  else if commitOk then
    ({ st with pendingOperations := [] },
     st.pendingOperations.foldl (fun acc p => applyOp acc p.1 p.2 now) db)
  else (st, db)

/-- Outcome of the per-operation try/catch inside the flush loop: for one
user, either every query succeeds, or a query throws before any of that
user's writes ran (the SELECT, or the first UPDATE), or the delta UPDATE
throws after the daily-reset UPDATE already ran inside the transaction.
The catch swallows the error, the loop continues, and the commit can still
succeed. -/
inductive OpOutcome where
  | ok
  | failBefore
  | failAfterReset
deriving DecidableEq

/-- Per-user flush body with its try/catch explicit: a swallowed error skips
the rest of that operation's writes (leaving any write that already ran
pending in the transaction) but aborts nothing else. -/
def applyOpE (db : Db) (userId : String) (op : PendingOp) (now : JsDate)
    (outcome : OpOutcome) : Db :=
  match outcome with
  | .ok => applyOp db userId op now
  | .failBefore => db
  | .failAfterReset =>
    match verifiedDomainsOf db userId with
    | [] => db
    | _ :: _ => if op.resetDaily then dbResetDaily db userId now else db

/-- `flushPendingOperations` with the per-operation query outcomes explicit:
a per-user failure is swallowed by its catch, the transaction still commits,
and the queue — including the unapplied delta — is cleared. -/
def flushPendingOperationsE (st : RateLimitState) (db : Db) (now : JsDate)
    (outcomes : String → OpOutcome) (commitOk : Bool) : RateLimitState × Db :=
  if st.pendingOperations.isEmpty then (st, db)
  else if commitOk then
    ({ st with pendingOperations := [] },
     st.pendingOperations.foldl (fun acc p => applyOpE acc p.1 p.2 now (outcomes p.1)) db)
  else (st, db)

/-- `cleanup` of the batched version: drop cache entries older than 25 hours
together with their pending operations. -/
def rlCleanup (st : RateLimitState) (now : JsDate) : RateLimitState :=
  let cutoff := now.ms - 25 * 60 * 60 * 1000
  let expiredKeys := (st.users.filter (fun p => decide (p.2.lastReset.ms < cutoff))).map (·.1)
  { users := st.users.filter (fun p => !(decide (p.2.lastReset.ms < cutoff)))
    pendingOperations := st.pendingOperations.filter (fun q => !(expiredKeys.contains q.1)) }

/-- `getUserUsage`: a 10% random draw triggers `cleanup` (the draw is the
`rand10` parameter); then `resetDailyIfNeeded`.  The database branch
(`if (!usage)`) is dead code because `resetDailyIfNeeded` always returns a
record. -/
def getUserUsage (st : RateLimitState) (userId : String) (now : JsDate)
    (rand10 : Bool) : UsageData × RateLimitState :=
  let st0 := if rand10 then rlCleanup st now else st
  resetDailyIfNeeded st0 userId now

/-- `incrementUserUsage`: bump both counters in cache, queue a (+1, +1) delta. -/
def incrementUserUsage (st : RateLimitState) (userId domainId : String)
    (now : JsDate) (rand10 : Bool) : UsageData × RateLimitState :=
  let r := getUserUsage st userId now rand10
  let usage := { r.1 with dailyCount := r.1.dailyCount + 1
                          totalCount := r.1.totalCount + 1
                          dirty := true }
  let st2 := { r.2 with users := JsMap.set r.2.users userId usage }
  (usage, addPendingOperation st2 userId 1 1 (some domainId))

/-- `decrementUserUsage` (lines 461-482): only the total counter moves, and
only when it is strictly positive; otherwise nothing is written. -/
def decrementUserUsage (st : RateLimitState) (userId customDomainId : String)
    (now : JsDate) (rand10 : Bool) : UsageData × RateLimitState :=
  let r := getUserUsage st userId now rand10
  if 0 < r.1.totalCount then
    let usage := { r.1 with totalCount := r.1.totalCount - 1, dirty := true }
    let st2 := { r.2 with users := JsMap.set r.2.users userId usage }
    (usage, addPendingOperation st2 userId 0 (-1) (some customDomainId))
  else r

/-- The operations of the usage-counter component, for invariant statements. -/
inductive RlOp where
  | increment (userId domainId : String) (now : JsDate) (rand10 : Bool)
  | decrement (userId domainId : String) (now : JsDate) (rand10 : Bool)
  | reset (userId : String) (now : JsDate)
  | flush (now : JsDate) (commitOk : Bool)
  | clean (now : JsDate)

def rlStep : RlOp → RateLimitState × Db → RateLimitState × Db
  | .increment u d now r, s => ((incrementUserUsage s.1 u d now r).2, s.2)
  | .decrement u d now r, s => ((decrementUserUsage s.1 u d now r).2, s.2)
  | .reset u now, s => ((resetDailyIfNeeded s.1 u now).2, s.2)
  | .flush now ok, s => flushPendingOperations s.1 s.2 now ok
  | .clean now, s => (rlCleanup s.1 now, s.2)

def rlRun (ops : List RlOp) (s : RateLimitState × Db) : RateLimitState × Db :=
  ops.foldl (fun s op => rlStep op s) s

/-- Non-negativity of every cached total count. -/
def cacheNonneg (st : RateLimitState) : Prop :=
  ∀ p ∈ st.users, 0 ≤ p.2.totalCount

/-- Non-negativity of every persisted counter. -/
def dbNonneg (db : Db) : Prop :=
  ∀ row ∈ db.custom_domains, 0 ≤ row.daily_count ∧ 0 ≤ row.total_count

/-! ### Concrete scenarios used by counterexamples and witnesses -/

/-- Run a sequence of `createApiEmail` calls, failing if any one fails. -/
def runCreates (userId : String) (tt : TimeTier) (cd : Option String) (ut : String) :
    List CreateEnv → ApiStoreState → Option ApiStoreState
  | [], st => some st
  | env :: rest, st =>
    match createApiEmail st env userId tt cd ut with
    | .ok (_, st') => runCreates userId tt cd ut rest st'
    | .error _ => none

/-- A live email owned by another user, holding the address the generator is
about to produce again. -/
def c1Other : EmailData :=
  { id := "other-id", email := "abc@boomlify.com", userId := "other-user",
    timeTier := .t10min, createdAt := 0, expiresAt := 1000000000, messages := [],
    isApiEmail := true, domain := "boomlify.com", isCustomDomain := false }

def c1State : ApiStoreState :=
  { apiEmailStore := [("other-id", c1Other)]
    userApiEmailIndex := [("other-user", ["other-id"])]
    usageCounters := []
    emailToApiUserMap := [("abc@boomlify.com", ("other-user", "other-id"))]
    domainsCache := { domains := ["boomlify.com"], lastUpdate := 1000 }
    userDomainsCache := [] }

def c1Env : CreateEnv :=
  { emailId := "new-id", localPart := "abc", nowMs := 1000, today := "2026-01-01",
    publicDomainsDb := .ok ["boomlify.com"], userDomainsDb := .ok [], randIdx := 0 }

def c1Result : Except CreateError (EmailData × ApiStoreState) :=
  createApiEmail c1State c1Env "user1" .t10min none "free"

def defaultEmailData : EmailData :=
  { id := "", email := "", userId := "", timeTier := .t10min, createdAt := 0,
    expiresAt := 0, messages := [], isApiEmail := true, domain := "",
    isCustomDomain := false }

def emptyApiState : ApiStoreState :=
  { apiEmailStore := [], userApiEmailIndex := [], usageCounters := [],
    emailToApiUserMap := [], domainsCache := { domains := [], lastUpdate := 0 },
    userDomainsCache := [] }

/-- Fresh store whose public-domain cache is warm, for the quota scenario. -/
def c4St : ApiStoreState :=
  { emptyApiState with domainsCache := { domains := ["x.com"], lastUpdate := 0 } }

def c4Env : CreateEnv :=
  { emailId := "id", localPart := "abc", nowMs := 0, today := "D",
    publicDomainsDb := .ok [], userDomainsDb := .ok [], randIdx := 0 }

/-- Five successful `'1day'` creates (the `'1day'` daily limit). -/
def c4Final : ApiStoreState :=
  (runCreates "u" .t1day none "free" (List.replicate 5 c4Env) c4St).getD c4St

/-- Stale but non-empty public-domain cache. -/
def c5State : ApiStoreState :=
  { emptyApiState with domainsCache := { domains := ["a.com"], lastUpdate := 0 } }

/-- Fresh per-owner verified-domain cache that does not contain the requested
domain, while the public cache does. -/
def c6State : ApiStoreState :=
  { emptyApiState with
    domainsCache := { domains := ["pub.com"], lastUpdate := 1000 }
    userDomainsCache := [("u1", { domains := [], expiresAt := 2000000 })] }

def c6Env : CreateEnv :=
  { emailId := "e1", localPart := "loc", nowMs := 1000, today := "D",
    publicDomainsDb := .ok ["pub.com"], userDomainsDb := .ok [], randIdx := 0 }

/-- A live mailbox already holding 50 messages, for the bounded-list witness. -/
def c7Full : EmailData :=
  { c1Other with messages := List.replicate 50 { subject := "old", received_at := "t0" } }

def c7State : ApiStoreState :=
  { emptyApiState with apiEmailStore := [("m1", c7Full)] }

/-- One cached user with one pending (+1, +1) delta awaiting flush. -/
def c8St : RateLimitState :=
  ⟨[("u", ⟨1, 1, ⟨0, "M"⟩, true⟩)], [("u", ⟨1, 1, some "d", false⟩)]⟩

/-- The matching verified domain row in durable storage. -/
def c8Db : Db := ⟨[⟨"d", "u", "verified", 2, 3, "M"⟩]⟩

/-! ### Map lemmas -/

theorem JsMap.find_set_self {α : Type} (m : List (String × α)) (k : String) (v : α) :
    JsMap.find (JsMap.set m k v) k = some v := by
  induction m with
  | nil => simp [JsMap.set, JsMap.find]
  | cons p rest ih =>
    by_cases h : p.1 = k
    · simp [JsMap.set, JsMap.find, h]
    · simp [JsMap.set, JsMap.find, h, ih]

theorem JsMap.find_set_ne {α : Type} (m : List (String × α)) (k k' : String) (v : α)
    (h : k ≠ k') : JsMap.find (JsMap.set m k v) k' = JsMap.find m k' := by
  induction m with
  | nil => simp [JsMap.set, JsMap.find, h]
  | cons p rest ih =>
    by_cases hp : p.1 = k
    · simp [JsMap.set, JsMap.find, hp, h]
    · simp [JsMap.set, JsMap.find, hp, ih]

theorem JsMap.find_del_self {α : Type} (m : List (String × α)) (k : String) :
    JsMap.find (JsMap.del m k) k = none := by
  induction m with
  | nil => rfl
  | cons p rest ih =>
    by_cases h : p.1 = k
    · simpa [JsMap.del, List.filter_cons, h] using ih
    · simpa [JsMap.del, List.filter_cons, h, JsMap.find] using ih

theorem JsMap.find_mem {α : Type} {m : List (String × α)} {k : String} {v : α}
    (h : JsMap.find m k = some v) : (k, v) ∈ m := by
  induction m with
  | nil => simp [JsMap.find] at h
  | cons p rest ih =>
    simp only [JsMap.find] at h
    split at h
    · rename_i hk
      simp only [Option.some.injEq] at h
      exact List.mem_cons.mpr (Or.inl (by rw [← hk, ← h]))
    · exact List.mem_cons.mpr (Or.inr (ih h))

theorem JsMap.mem_set {α : Type} {m : List (String × α)} {k : String} {v : α}
    {q : String × α} (h : q ∈ JsMap.set m k v) : q = (k, v) ∨ q ∈ m := by
  induction m with
  | nil => simp [JsMap.set] at h; exact Or.inl h
  | cons p rest ih =>
    simp only [JsMap.set] at h
    split at h
    · rcases List.mem_cons.mp h with h1 | h1
      · exact Or.inl h1
      · exact Or.inr (List.mem_cons.mpr (Or.inr h1))
    · rcases List.mem_cons.mp h with h1 | h1
      · exact Or.inr (List.mem_cons.mpr (Or.inl h1))
      · rcases ih h1 with h2 | h2
        · exact Or.inl h2
        · exact Or.inr (List.mem_cons.mpr (Or.inr h2))

theorem setDel_not_mem (s : List String) (x : String) : x ∉ setDel s x := by
  simp [setDel, List.mem_filter]

/-- What `cleanupEmail` guarantees: the record, its owner-index entry and its
address-map entry are all gone. -/
theorem cleanupEmail_spec (st : ApiStoreState) (emailId userId : String) (e : EmailData) :
    JsMap.find (cleanupEmail st emailId userId e).apiEmailStore emailId = none ∧
    emailId ∉ ((JsMap.find (cleanupEmail st emailId userId e).userApiEmailIndex userId).getD []) ∧
    JsMap.find (cleanupEmail st emailId userId e).emailToApiUserMap e.email = none := by
  unfold cleanupEmail
  cases hidx : JsMap.find st.userApiEmailIndex userId with
  | some s =>
    simp [hidx, JsMap.find_del_self, JsMap.find_set_self, setDel_not_mem]
  | none =>
    simp [hidx, JsMap.find_del_self]

/-- Claim C2: for an entity present in the store, any call of `getApiEmail`
with `expiresAt <= now` returns null, and when the caller is the owner the
lazy cleanup removes the record from the entity table, the owner index and
the address index before returning; a live, owned entity is returned as is
with no state change. -/
theorem C2_ttl_lazy_expiry (st : ApiStoreState) (emailId userId : String)
    (nowMs : Int) (e : EmailData)
    (he : JsMap.find st.apiEmailStore emailId = some e) :
    (e.expiresAt ≤ nowMs →
      (getApiEmail st emailId userId nowMs).1 = none ∧
      (userId = e.userId →
        JsMap.find (getApiEmail st emailId userId nowMs).2.apiEmailStore emailId = none ∧
        emailId ∉ ((JsMap.find (getApiEmail st emailId userId nowMs).2.userApiEmailIndex userId).getD []) ∧
        JsMap.find (getApiEmail st emailId userId nowMs).2.emailToApiUserMap e.email = none)) ∧
    (userId = e.userId → nowMs < e.expiresAt →
      getApiEmail st emailId userId nowMs = (some e, st)) := by
  have hmain : getApiEmail st emailId userId nowMs =
      (if e.userId ≠ userId then (none, st)
       else if e.expiresAt ≤ nowMs then (none, cleanupEmail st emailId userId e)
       else (some e, st)) := by
    unfold getApiEmail; rw [he]
  constructor
  · intro hexp
    by_cases hu : e.userId = userId
    · have hg : getApiEmail st emailId userId nowMs = (none, cleanupEmail st emailId userId e) := by
        rw [hmain]; simp [hu, hexp]
      rw [hg]
      exact ⟨rfl, fun _ => cleanupEmail_spec st emailId userId e⟩
    · have hg : getApiEmail st emailId userId nowMs = (none, st) := by
        rw [hmain]; simp [hu]
      rw [hg]
      exact ⟨rfl, fun h => absurd h.symm hu⟩
  · intro hu hlive
    rw [hmain, if_neg (by simp [hu.symm]), if_neg (not_le.mpr hlive)]

/-- Witness for C2 at a concrete expired entity and a concrete live one. -/
theorem C2_ttl_lazy_expiry_witness :
    (JsMap.find c1State.apiEmailStore "other-id" = some c1Other) ∧
    ((getApiEmail c1State "other-id" "other-user" 1000000000).1 = none ∧
      JsMap.find (getApiEmail c1State "other-id" "other-user" 1000000000).2.apiEmailStore "other-id" = none) ∧
    getApiEmail c1State "other-id" "other-user" 5 = (some c1Other, c1State) := by
  have h := C2_ttl_lazy_expiry c1State "other-id" "other-user" 1000000000 c1Other (by rfl)
  have h2 := C2_ttl_lazy_expiry c1State "other-id" "other-user" 5 c1Other (by rfl)
  have hx := h.1 (by decide)
  exact ⟨by rfl, ⟨hx.1, (hx.2 rfl).1⟩, h2.2 rfl (by decide)⟩

/-- Claim C9: deletion is idempotent in its return value: deleting an owned,
present entity returns true, and deleting it again returns false; deletion of
an absent entity or one owned by a different user returns false. -/
theorem C9_delete_idempotent (st : ApiStoreState) (emailId userId : String) :
    (∀ e, JsMap.find st.apiEmailStore emailId = some e → e.userId = userId →
      (deleteApiEmail st emailId userId).1 = true ∧
      (deleteApiEmail (deleteApiEmail st emailId userId).2 emailId userId).1 = false) ∧
    (JsMap.find st.apiEmailStore emailId = none →
      (deleteApiEmail st emailId userId).1 = false) ∧
    (∀ e, JsMap.find st.apiEmailStore emailId = some e → e.userId ≠ userId →
      (deleteApiEmail st emailId userId).1 = false) := by
  refine ⟨?_, ?_, ?_⟩
  · intro e he hu
    have h1 : deleteApiEmail st emailId userId = (true, cleanupEmail st emailId userId e) := by
      unfold deleteApiEmail; rw [he]; simp [hu]
    rw [h1]
    refine ⟨rfl, ?_⟩
    have h2 := (cleanupEmail_spec st emailId userId e).1
    unfold deleteApiEmail
    rw [h2]
  · intro he; unfold deleteApiEmail; rw [he]
  · intro e he hu
    unfold deleteApiEmail; rw [he]; simp [hu]

/-- Witness for C9: concrete double deletion and a wrong-owner deletion. -/
theorem C9_delete_idempotent_witness :
    (deleteApiEmail c1State "other-id" "other-user").1 = true ∧
    (deleteApiEmail (deleteApiEmail c1State "other-id" "other-user").2 "other-id" "other-user").1 = false ∧
    (deleteApiEmail c1State "other-id" "someone-else").1 = false := by
  have h := C9_delete_idempotent c1State "other-id" "other-user"
  have h2 := C9_delete_idempotent c1State "other-id" "someone-else"
  have ha := h.1 c1Other (by rfl) (by rfl)
  exact ⟨ha.1, ha.2, h2.2.2 c1Other (by rfl) (by decide)⟩

/-- Claim C7: appending to a live entity that already holds 50 messages keeps
exactly 50, newest first, the new message at the head and the oldest dropped;
appending below the cap prepends without dropping. -/
theorem C7_bounded_messages (st : ApiStoreState) (emailId : String) (e : EmailData)
    (msg : MessageData) (nowIso : String) (nowMs : Int)
    (he : JsMap.find st.apiEmailStore emailId = some e) (hlive : nowMs < e.expiresAt) :
    (addApiEmailMessage st emailId msg nowIso nowMs).1 = true ∧
    (e.messages.length = 50 →
      JsMap.find (addApiEmailMessage st emailId msg nowIso nowMs).2.apiEmailStore emailId =
        some { e with messages := storeMessage msg nowIso :: e.messages.dropLast } ∧
      (storeMessage msg nowIso :: e.messages.dropLast).length = 50) ∧
    (e.messages.length < 50 →
      JsMap.find (addApiEmailMessage st emailId msg nowIso nowMs).2.apiEmailStore emailId =
        some { e with messages := storeMessage msg nowIso :: e.messages }) := by
  have hnle : ¬ e.expiresAt ≤ nowMs := not_le.mpr hlive
  have hmain : addApiEmailMessage st emailId msg nowIso nowMs =
      (true, { st with apiEmailStore := JsMap.set st.apiEmailStore emailId { e with messages := if 50 < (storeMessage msg nowIso :: e.messages).length then (storeMessage msg nowIso :: e.messages).take 50 else storeMessage msg nowIso :: e.messages } }) := by
    unfold addApiEmailMessage; rw [he]; simp [hnle]
  refine ⟨by rw [hmain], ?_, ?_⟩
  · intro hlen
    have hcond : 50 < (storeMessage msg nowIso :: e.messages).length := by
      simp [hlen]
    have htake : (storeMessage msg nowIso :: e.messages).take 50 =
        storeMessage msg nowIso :: e.messages.dropLast := by
      rw [List.dropLast_eq_take, hlen]
      rfl
    rw [hmain]
    constructor
    · simp only [if_pos hcond, htake]
      exact JsMap.find_set_self ..
    · simp [List.length_dropLast, hlen]
  · intro hlen
    have hcond : ¬ 50 < (storeMessage msg nowIso :: e.messages).length := by
      simp; omega
    rw [hmain]
    simp only [if_neg hcond]
    exact JsMap.find_set_self ..

/-- Witness for C7: the 51st message leaves exactly 50, newest first. -/
theorem C7_bounded_messages_witness :
    (addApiEmailMessage c7State "m1" { subject := "hi", received_at := some "t1" } "iso" 5).1 = true ∧
    JsMap.find (addApiEmailMessage c7State "m1" { subject := "hi", received_at := some "t1" } "iso" 5).2.apiEmailStore "m1" =
      some { c7Full with messages := { subject := "hi", received_at := "t1" } :: c7Full.messages.dropLast } ∧
    ({ subject := "hi", received_at := "t1" } :: c7Full.messages.dropLast : List StoredMessage).length = 50 := by
  have h := C7_bounded_messages c7State "m1" c7Full
    { subject := "hi", received_at := some "t1" } "iso" 5 (by rfl) (by decide)
  have h50 := h.2.1 (by decide)
  exact ⟨h.1, h50.1, h50.2⟩

/-- A successful `createApiEmail` always went through `insertEmail` on the
state produced by domain resolution. -/
theorem createApiEmail_ok_insert (st : ApiStoreState) (env : CreateEnv) (userId : String)
    (tt : TimeTier) (cd : Option String) (ut : String) (p : EmailData × ApiStoreState)
    (h : createApiEmail st env userId tt cd ut = .ok p) :
    ∃ st1 domain, resolveDomain st env userId cd = .ok (domain, st1) ∧
      p = insertEmail st1 env userId tt cd domain := by
  unfold createApiEmail at h
  split at h
  · simp at h
  · cases hres : resolveDomain st env userId cd with
    | error e => rw [hres] at h; simp at h
    | ok q =>
      obtain ⟨domain, st1⟩ := q
      rw [hres] at h
      simp only [Except.ok.injEq] at h
      exact ⟨st1, domain, rfl, h.symm⟩

/-- The record and state built by `insertEmail`, seen through the fields the
claims talk about. -/
theorem insertEmail_fields (st : ApiStoreState) (env : CreateEnv) (userId : String)
    (tt : TimeTier) (cd : Option String) (domain : String) :
    (insertEmail st env userId tt cd domain).1.id = env.emailId ∧
    (insertEmail st env userId tt cd domain).1.email = env.localPart ++ "@" ++ domain ∧
    (insertEmail st env userId tt cd domain).1.isCustomDomain = cd.isSome ∧
    (insertEmail st env userId tt cd domain).1.domain = domain ∧
    JsMap.find (insertEmail st env userId tt cd domain).2.emailToApiUserMap
      (env.localPart ++ "@" ++ domain) = some (userId, env.emailId) := by
  refine ⟨rfl, rfl, rfl, rfl, ?_⟩
  simp only [insertEmail, updateUsageCounter]
  exact JsMap.find_set_self ..

/-- Counterexample to claim C1: the generated address is already present in
`emailToApiUserMap` (owned by another user), yet the create succeeds and
silently overwrites the mapping — there is no prior-presence check and no
`AddressGenerationExhausted` retry loop. -/
theorem C1_counterexample_overwrite :
    JsMap.find c1State.emailToApiUserMap "abc@boomlify.com" = some ("other-user", "other-id") ∧
    c1Result.toOption.map
        (fun p => (p.1.email, JsMap.find p.2.emailToApiUserMap "abc@boomlify.com")) =
      some ("abc@boomlify.com", some ("user1", "new-id")) := by
  exact ⟨rfl, rfl⟩

/-- Amended claim C1: after every successful create the resulting address is
present in the address index and mapped to the new (userId, emailId); the
local part is generated once, with no collision check and no
`AddressGenerationExhausted` failure — an existing mapping for the same
address is overwritten. -/
theorem C1_amended_address_mapped (st : ApiStoreState) (env : CreateEnv) (userId : String)
    (tt : TimeTier) (cd : Option String) (ut : String) (p : EmailData × ApiStoreState)
    (h : createApiEmail st env userId tt cd ut = .ok p) :
    p.1.id = env.emailId ∧
    JsMap.find p.2.emailToApiUserMap p.1.email = some (userId, env.emailId) := by
  obtain ⟨st1, domain, hres, hp⟩ := createApiEmail_ok_insert st env userId tt cd ut p h
  subst hp
  obtain ⟨h1, h2, _, _, h5⟩ := insertEmail_fields st1 env userId tt cd domain
  exact ⟨h1, by rw [h2]; exact h5⟩

/-- Witness for the amended C1 at the collision scenario. -/
theorem C1_amended_address_mapped_witness :
    JsMap.find (c1Result.toOption.getD (defaultEmailData, emptyApiState)).2.emailToApiUserMap
      (c1Result.toOption.getD (defaultEmailData, emptyApiState)).1.email =
      some ("user1", "new-id") := by
  have h := C1_amended_address_mapped c1State c1Env "user1" .t10min none "free"
    (c1Result.toOption.getD (defaultEmailData, emptyApiState)) (by rfl)
  exact h.2

theorem pickDomain_mem (l : List String) (r : Nat) (h : l ≠ []) : pickDomain l r ∈ l := by
  have hlen : 0 < l.length := List.length_pos.mpr h
  have hr : r % l.length < l.length := Nat.mod_lt _ hlen
  unfold pickDomain
  rw [List.getD_eq_getElem?_getD, List.getElem?_eq_getElem hr]
  exact List.getElem_mem hr

/-- Counterexample to claim C5: the public-domain cache is stale but
non-empty, the refresh fails, and `getRandomDomain` returns the hardcoded
default rather than any stale cached value. -/
theorem C5_counterexample_default_over_stale :
    c5State.domainsCache.domains = ["a.com"] ∧
    getRandomDomain c5State (domainsTTL + 1) (.error ()) 0 = ("boomlify.com", c5State) ∧
    "boomlify.com" ∉ c5State.domainsCache.domains := by
  exact ⟨rfl, rfl, by decide⟩

/-- Amended claim C5: `getRandomDomain` serves from the cache when it is
fresh and non-empty, refreshes once and serves from the refreshed list when
the refresh succeeds, and on refresh failure returns the hardcoded default
domain regardless of any cached value (the whole body is one try/catch, so
stale values are never served on a failed refresh). -/
theorem C5_amended_default_on_refresh_failure (st : ApiStoreState) (nowMs : Int)
    (db : Except Unit (List String)) (ridx : Nat) :
    (nowMs - st.domainsCache.lastUpdate ≤ domainsTTL → st.domainsCache.domains ≠ [] →
      (getRandomDomain st nowMs db ridx).1 ∈ st.domainsCache.domains ∧
      (getRandomDomain st nowMs db ridx).2 = st) ∧
    (∀ ds, (domainsTTL < nowMs - st.domainsCache.lastUpdate ∨ st.domainsCache.domains = []) →
      db = .ok ds → ds ≠ [] → (getRandomDomain st nowMs db ridx).1 ∈ ds) ∧
    ((domainsTTL < nowMs - st.domainsCache.lastUpdate ∨ st.domainsCache.domains = []) →
      db = .error () → getRandomDomain st nowMs db ridx = ("boomlify.com", st)) := by
  refine ⟨?_, ?_, ?_⟩
  · intro hfresh hne
    have hcond : ¬(domainsTTL < nowMs - st.domainsCache.lastUpdate ∨
        st.domainsCache.domains = []) := by
      push_neg
      exact ⟨hfresh, hne⟩
    unfold getRandomDomain
    rw [if_neg hcond, if_neg hne]
    exact ⟨pickDomain_mem _ _ hne, rfl⟩
  · intro ds hcond hdb hne
    subst hdb
    unfold getRandomDomain
    rw [if_pos hcond]
    simp only [if_neg hne]
    exact pickDomain_mem _ _ hne
  · intro hcond hdb
    subst hdb
    unfold getRandomDomain
    rw [if_pos hcond]

/-- Witness for the amended C5: fresh cache serves a cached domain; a failed
refresh returns the default. -/
theorem C5_amended_default_on_refresh_failure_witness :
    (getRandomDomain c5State 5 (.error ()) 0).1 ∈ c5State.domainsCache.domains ∧
    (getRandomDomain c5State 5 (.error ()) 0).2 = c5State ∧
    getRandomDomain c5State (domainsTTL + 1) (.error ()) 0 = ("boomlify.com", c5State) := by
  have h1 := (C5_amended_default_on_refresh_failure c5State 5 (.error ()) 0).1
    (by decide) (by decide)
  have h3 := (C5_amended_default_on_refresh_failure c5State (domainsTTL + 1)
    (.error ()) 0).2.2 (Or.inl (by decide)) rfl
  exact ⟨h1.1, h1.2, h3⟩

/-- When the owner's verified list rejects the domain but the public cache
(after the single refresh attempt) contains it, `resolveDomain` succeeds via
the public-domain fallback. -/
theorem resolveDomain_fallback (st : ApiStoreState) (env : CreateEnv) (userId d : String)
    (hv : (validateUserDomain st env userId d).1 = none)
    (hp : d ∈ (validateUserDomain st env userId d).2.domainsCache.domains) :
    resolveDomain st env userId (some d) = .ok (d, (validateUserDomain st env userId d).2) := by
  cases hval : validateUserDomain st env userId d with
  | mk v1 st1 =>
    rw [hval] at hv hp
    simp only at hv hp
    subst hv
    simp only [resolveDomain, hval, if_pos hp]

/-- Counterexample to claim C6: a create via the public-domain fallback
(owner's fresh verified cache does not contain the domain, the public cache
does) succeeds with `isCustomDomain = true`, not `false`. -/
theorem C6_counterexample_fallback_flag :
    JsMap.find c6State.userDomainsCache "u1" = some { domains := [], expiresAt := 2000000 } ∧
    c6State.domainsCache.domains = ["pub.com"] ∧
    (createApiEmail c6State c6Env "u1" .t10min (some "pub.com") "free").toOption.map
        (fun p => (p.1.isCustomDomain, p.1.domain)) = some (true, "pub.com") := by
  exact ⟨rfl, rfl, rfl⟩

/-- Amended claim C6: a requested domain that is not owner-verified but is a
known public domain succeeds via the fallback, and the resulting entity has
`isCustomDomain = true`: the flag records whether a custom domain was
requested at all (`!!customDomain`), not which validation path succeeded. -/
theorem C6_amended_fallback_flag (st : ApiStoreState) (env : CreateEnv)
    (userId : String) (tt : TimeTier) (d : String) (ut : String)
    (hq : ut = "unlimited" ∨ ut = "enterprise" ∨ checkDailyLimit st userId tt env.today = true)
    (hv : (validateUserDomain st env userId d).1 = none)
    (hp : d ∈ (validateUserDomain st env userId d).2.domainsCache.domains) :
    (createApiEmail st env userId tt (some d) ut).toOption.map
        (fun p => (p.1.isCustomDomain, p.1.domain)) = some (true, d) ∧
    (∀ (cd : Option String) (p : EmailData × ApiStoreState),
      createApiEmail st env userId tt cd ut = .ok p → p.1.isCustomDomain = cd.isSome) := by
  have hng : ¬(ut ≠ "unlimited" ∧ ut ≠ "enterprise" ∧
      checkDailyLimit st userId tt env.today = false) := by
    rcases hq with h | h | h
    · exact fun hc => hc.1 h
    · exact fun hc => hc.2.1 h
    · exact fun hc => by rw [h] at hc; exact absurd hc.2.2 (by simp)
  constructor
  · have hres := resolveDomain_fallback st env userId d hv hp
    unfold createApiEmail
    rw [if_neg hng, hres]
    rfl
  · intro cd p hcp
    obtain ⟨st1, domain, _, hpi⟩ := createApiEmail_ok_insert st env userId tt cd ut p hcp
    subst hpi
    exact (insertEmail_fields st1 env userId tt cd domain).2.2.1

/-- Domain resolution never touches the usage counters (validate path). -/
theorem validateUserDomain_counters (st : ApiStoreState) (env : CreateEnv) (u d : String) :
    (validateUserDomain st env u d).2.usageCounters = st.usageCounters := by
  cases hf : JsMap.find st.userDomainsCache u with
  | some cached =>
    simp only [validateUserDomain, hf]
    split
    · rfl
    · unfold validateRefresh
      cases env.userDomainsDb <;> rfl
  | none =>
    simp only [validateUserDomain, hf]
    unfold validateRefresh
    cases env.userDomainsDb <;> rfl

/-- Domain resolution never touches the usage counters (random path). -/
theorem getRandomDomain_counters (st : ApiStoreState) (nowMs : Int)
    (db : Except Unit (List String)) (ridx : Nat) :
    (getRandomDomain st nowMs db ridx).2.usageCounters = st.usageCounters := by
  unfold getRandomDomain
  split
  · cases db with
    | error e => rfl
    | ok ds =>
      dsimp only
      split <;> rfl
  · split <;> rfl

/-- The state produced by a successful `resolveDomain` carries the caller's
usage counters unchanged. -/
theorem resolveDomain_counters (st : ApiStoreState) (env : CreateEnv) (u : String)
    (cd : Option String) (d : String) (st1 : ApiStoreState)
    (h : resolveDomain st env u cd = .ok (d, st1)) :
    st1.usageCounters = st.usageCounters := by
  cases cd with
  | none =>
    simp only [resolveDomain, Except.ok.injEq, Prod.mk.injEq] at h
    rw [← h.2]
    exact getRandomDomain_counters st env.nowMs env.publicDomainsDb env.randIdx
  | some c =>
    simp only [resolveDomain] at h
    cases hval : validateUserDomain st env u c with
    | mk v1 s1 =>
      have hs1 : s1.usageCounters = st.usageCounters := by
        have hv := validateUserDomain_counters st env u c
        rw [hval] at hv
        exact hv
      rw [hval] at h
      cases v1 with
      | some dd =>
        simp only [Except.ok.injEq, Prod.mk.injEq] at h
        rw [← h.2]
        exact hs1
      | none =>
        simp only at h
        by_cases hc : c ∈ s1.domainsCache.domains
        · rw [if_pos hc] at h
          rw [if_pos hc] at h
          simp only [Except.ok.injEq, Prod.mk.injEq] at h
          rw [← h.2]
          exact hs1
        · rw [if_neg hc] at h
          cases hdb : env.publicDomainsDb with
          | error e =>
            rw [hdb] at h
            rw [if_neg hc] at h
            simp at h
          | ok ds =>
            rw [hdb] at h
            split at h
            · simp only [Except.ok.injEq, Prod.mk.injEq] at h
              rw [← h.2]
              exact hs1
            · simp at h

/-- A successful create sets exactly one usage-counter entry: the caller's
key for today, incremented at the requested tier. -/
theorem createApiEmail_ok_counters (st : ApiStoreState) (env : CreateEnv) (userId : String)
    (tt : TimeTier) (cd : Option String) (ut : String) (e : EmailData) (st' : ApiStoreState)
    (h : createApiEmail st env userId tt cd ut = .ok (e, st')) :
    st'.usageCounters = JsMap.set st.usageCounters (usageKey userId env.today)
      (Usage.inc ((JsMap.find st.usageCounters (usageKey userId env.today)).getD ⟨0, 0, 0⟩) tt) := by
  obtain ⟨st1, domain, hres, hp⟩ := createApiEmail_ok_insert st env userId tt cd ut (e, st') h
  have hc := resolveDomain_counters st env userId cd domain st1 hres
  have hu : st' = (insertEmail st1 env userId tt cd domain).2 := congrArg Prod.snd hp
  rw [hu]
  show (updateUsageCounter _ userId tt env.today).usageCounters = _
  simp only [updateUsageCounter, insertEmail]
  rw [hc]

/-- A successful create bumps today's tier count by exactly one. -/
theorem createApiEmail_tierCount (st : ApiStoreState) (env : CreateEnv) (userId : String)
    (tt : TimeTier) (cd : Option String) (ut : String) (e : EmailData) (st' : ApiStoreState)
    (h : createApiEmail st env userId tt cd ut = .ok (e, st')) :
    tierCount st' userId env.today tt = tierCount st userId env.today tt + 1 := by
  have hc := createApiEmail_ok_counters st env userId tt cd ut e st' h
  unfold tierCount
  rw [hc, JsMap.find_set_self]
  cases tt <;> simp [Usage.inc, Usage.get]

/-- Once today's tier count has reached the limit, a non-privileged create
fails with the quota error before doing anything else. -/
theorem createApiEmail_quota_error (st : ApiStoreState) (env : CreateEnv) (userId : String)
    (tt : TimeTier) (cd : Option String) (ut : String)
    (hu1 : ut ≠ "unlimited") (hu2 : ut ≠ "enterprise")
    (hcnt : freeLimit tt ≤ tierCount st userId env.today tt) :
    createApiEmail st env userId tt cd ut = .error .quotaExceeded := by
  unfold createApiEmail
  rw [if_pos]
  exact ⟨hu1, hu2, by simp only [checkDailyLimit, decide_eq_false_iff_not]; omega⟩

/-- `resolveDomain` can only fail with `DomainInvalid`, never with the quota
error. -/
theorem resolveDomain_error_domainInvalid (st : ApiStoreState) (env : CreateEnv)
    (u : String) (cd : Option String) (e : CreateError)
    (h : resolveDomain st env u cd = .error e) : e = .domainInvalid := by
  cases cd with
  | none => simp [resolveDomain] at h
  | some c =>
    simp only [resolveDomain] at h
    cases hval : validateUserDomain st env u c with
    | mk v1 s1 =>
      rw [hval] at h
      cases v1 with
      | some dd => simp at h
      | none =>
        repeat' split at h
        all_goals first
          | exact Except.noConfusion h
          | (injection h with h2; exact h2.symm)

/-- Successful creates accumulate: running a same-day batch adds its length
to today's tier count. -/
theorem runCreates_count (userId : String) (tt : TimeTier) (cd : Option String)
    (ut : String) (day : String) :
    ∀ (envs : List CreateEnv) (st st' : ApiStoreState),
      (∀ e ∈ envs, e.today = day) →
      runCreates userId tt cd ut envs st = some st' →
      tierCount st' userId day tt = tierCount st userId day tt + envs.length := by
  intro envs
  induction envs with
  | nil =>
    intro st st' _ h
    simp only [runCreates, Option.some.injEq] at h
    subst h
    simp
  | cons env rest ih =>
    intro st st' hday h
    simp only [runCreates] at h
    cases hc : createApiEmail st env userId tt cd ut with
    | error e => rw [hc] at h; simp at h
    | ok q =>
      obtain ⟨e1, stm⟩ := q
      rw [hc] at h
      have h1 := createApiEmail_tierCount st env userId tt cd ut e1 stm hc
      have h2 := ih stm st' (fun e he => hday e (List.mem_cons.mpr (Or.inr he))) h
      have hd : env.today = day := hday env (List.mem_cons.mpr (Or.inl rfl))
      rw [hd] at h1
      rw [h2, h1, List.length_cons]
      omega

/-- Claim C4: for a non-privileged owner, after `freeLimit tt` successful
same-day creates of a tier starting from a zero count, the next create of
that tier fails with the quota error; the privileged tiers `"unlimited"` and
`"enterprise"` can never fail with the quota error. -/
theorem C4_quota_enforcement :
    (∀ (userId day : String) (tt : TimeTier) (cd : Option String) (ut : String)
      (envs : List CreateEnv) (st st' : ApiStoreState) (env2 : CreateEnv),
      ut ≠ "unlimited" → ut ≠ "enterprise" →
      (∀ e ∈ envs, e.today = day) → env2.today = day →
      tierCount st userId day tt = 0 →
      envs.length = freeLimit tt →
      runCreates userId tt cd ut envs st = some st' →
      ∀ cd2, createApiEmail st' env2 userId tt cd2 ut = .error .quotaExceeded) ∧
    (∀ (st : ApiStoreState) (env : CreateEnv) (userId : String) (tt : TimeTier)
      (cd : Option String) (ut : String), (ut = "unlimited" ∨ ut = "enterprise") →
      createApiEmail st env userId tt cd ut ≠ .error .quotaExceeded) := by
  constructor
  · intro userId day tt cd ut envs st st' env2 hu1 hu2 hdays hday2 h0 hlen hrun cd2
    have hcount := runCreates_count userId tt cd ut day envs st st' hdays hrun
    rw [h0, hlen] at hcount
    apply createApiEmail_quota_error st' env2 userId tt cd2 ut hu1 hu2
    rw [hday2, hcount]
    omega
  · intro st env userId tt cd ut hpriv h
    have hng : ¬(ut ≠ "unlimited" ∧ ut ≠ "enterprise" ∧
        checkDailyLimit st userId tt env.today = false) := by
      rcases hpriv with hh | hh
      · exact fun hc => hc.1 hh
      · exact fun hc => hc.2.1 hh
    unfold createApiEmail at h
    rw [if_neg hng] at h
    cases hres : resolveDomain st env userId cd with
    | ok q =>
      obtain ⟨d0, s0⟩ := q
      rw [hres] at h
      simp at h
    | error e =>
      rw [hres] at h
      simp only [Except.error.injEq] at h
      have := resolveDomain_error_domainInvalid st env userId cd e hres
      rw [this] at h
      exact absurd h (by simp)

/-- Witness for C4: five successful `'1day'` creates exhaust the limit of 5,
the sixth fails with the quota error, and an `"unlimited"` owner is exempt. -/
theorem C4_quota_enforcement_witness :
    createApiEmail c4Final c4Env "u" .t1day none "free" = .error .quotaExceeded ∧
    createApiEmail c4St c4Env "u" .t1day none "unlimited" ≠ .error .quotaExceeded := by
  constructor
  · exact C4_quota_enforcement.1 "u" "D" .t1day none "free" (List.replicate 5 c4Env)
      c4St c4Final c4Env (by decide) (by decide)
      (fun e he => by rw [List.eq_of_mem_replicate he]; rfl)
      rfl rfl rfl (by rfl) none
  · exact C4_quota_enforcement.2 c4St c4Env "u" .t1day none "unlimited" (Or.inl rfl)

/-- Witness for the amended C6 at the concrete fallback scenario. -/
theorem C6_amended_fallback_flag_witness :
    (createApiEmail c6State c6Env "u1" .t10min (some "pub.com") "free").toOption.map
        (fun p => (p.1.isCustomDomain, p.1.domain)) = some (true, "pub.com") := by
  exact (C6_amended_fallback_flag c6State c6Env "u1" .t10min "pub.com" "free"
    (Or.inr (Or.inr rfl)) rfl (by decide)).1

/-- Claim C3: with a cached count and a pending delta accumulated before the
day boundary, a rollover (`resetDailyIfNeeded`) followed by a successful
flush leaves durable storage with the pre-rollover pending total delta
applied exactly once and the daily column reset to zero for the new day; the
in-memory total survives the rollover; and a second flush changes nothing. -/
theorem C3_rollover_preserves_delta (u did lrd : String) (d0 now : JsDate)
    (dc tc pd pt dbd dbt : Int) (dirty r : Bool) (st : RateLimitState) (db : Db)
    (hst : st = ⟨[(u, ⟨dc, tc, d0, dirty⟩)], [(u, ⟨pd, pt, some did, r⟩)]⟩)
    (hdb : db = ⟨[⟨did, u, "verified", dbd, dbt, lrd⟩]⟩)
    (hday : d0.day ≠ now.day) (hdc : 0 ≤ dc) (hpt : 0 ≤ dbt + pt) :
    (flushPendingOperations (resetDailyIfNeeded st u now).2 db now true).2.custom_domains =
      [⟨did, u, "verified", 0, dbt + pt, now.day⟩] ∧
    (flushPendingOperations (resetDailyIfNeeded st u now).2 db now true).1.pendingOperations = [] ∧
    (flushPendingOperations (resetDailyIfNeeded st u now).2 db now true).1.users =
      [(u, ⟨0, tc, now, true⟩)] ∧
    flushPendingOperations
        (flushPendingOperations (resetDailyIfNeeded st u now).2 db now true).1
        (flushPendingOperations (resetDailyIfNeeded st u now).2 db now true).2 now true =
      ((flushPendingOperations (resetDailyIfNeeded st u now).2 db now true).1,
       (flushPendingOperations (resetDailyIfNeeded st u now).2 db now true).2) := by
  subst hst hdb
  have h1 : (resetDailyIfNeeded
        ⟨[(u, ⟨dc, tc, d0, dirty⟩)], [(u, ⟨pd, pt, some did, r⟩)]⟩ u now).2 =
      ⟨[(u, ⟨0, tc, now, true⟩)], [(u, ⟨-dc, pt, some did, true⟩)]⟩ := by
    simp [resetDailyIfNeeded, JsMap.find, doDailyReset, resetNewData, resetPendingOp,
      JsMap.set, hday]
  rw [h1]
  have h2 : flushPendingOperations
        ⟨[(u, ⟨0, tc, now, true⟩)], [(u, ⟨-dc, pt, some did, true⟩)]⟩
        ⟨[⟨did, u, "verified", dbd, dbt, lrd⟩]⟩ now true =
      (⟨[(u, ⟨0, tc, now, true⟩)], []⟩, ⟨[⟨did, u, "verified", 0, dbt + pt, now.day⟩]⟩) := by
    by_cases hz : dc = 0 ∧ pt = 0
    · obtain ⟨hz1, hz2⟩ := hz
      subst hz1 hz2
      simp [flushPendingOperations, applyOp, verifiedDomainsOf, dbResetDaily, dbApplyDelta]
    · have hcond : (¬dc = 0 ∨ ¬pt = 0) := not_and_or.mp hz
      have hmax1 : -dc ⊔ 0 = 0 := max_eq_right (by omega)
      have hmax2 : (dbt + pt) ⊔ 0 = dbt + pt := max_eq_left hpt
      simp [flushPendingOperations, applyOp, verifiedDomainsOf, dbResetDaily, dbApplyDelta,
        hcond, hmax1, hmax2]
  rw [h2]
  exact ⟨rfl, rfl, rfl, rfl⟩

/-- Witness for C3: two cached creations and a pending (2, 3) delta roll
over; the flush lands `total = 1 + 3` exactly once and daily `= 0`. -/
theorem C3_rollover_preserves_delta_witness :
    (flushPendingOperations
        (resetDailyIfNeeded
          ⟨[("u", ⟨2, 3, ⟨0, "Mon"⟩, true⟩)], [("u", ⟨2, 3, some "d", false⟩)]⟩ "u"
          ⟨1, "Tue"⟩).2
        ⟨[⟨"d", "u", "verified", 1, 1, "x"⟩]⟩ ⟨1, "Tue"⟩ true).2.custom_domains =
      [⟨"d", "u", "verified", 0, 1 + 3, "Tue"⟩] ∧
    (flushPendingOperations
        (resetDailyIfNeeded
          ⟨[("u", ⟨2, 3, ⟨0, "Mon"⟩, true⟩)], [("u", ⟨2, 3, some "d", false⟩)]⟩ "u"
          ⟨1, "Tue"⟩).2
        ⟨[⟨"d", "u", "verified", 1, 1, "x"⟩]⟩ ⟨1, "Tue"⟩ true).1.pendingOperations = [] := by
  have h := C3_rollover_preserves_delta "u" "d" "x" ⟨0, "Mon"⟩ ⟨1, "Tue"⟩ 2 3 2 3 1 1 true false
    ⟨[("u", ⟨2, 3, ⟨0, "Mon"⟩, true⟩)], [("u", ⟨2, 3, some "d", false⟩)]⟩
    ⟨[⟨"d", "u", "verified", 1, 1, "x"⟩]⟩ rfl rfl (by decide) (by decide) (by decide)
  exact ⟨h.1, h.2.1⟩

/-- `flushPendingOperations` is exactly the explicit-outcome flush in which
every per-user query succeeds. -/
theorem flushPendingOperations_eq_allOk (st : RateLimitState) (db : Db) (now : JsDate)
    (commitOk : Bool) :
    flushPendingOperations st db now commitOk =
      flushPendingOperationsE st db now (fun _ => OpOutcome.ok) commitOk := rfl

/-- Counterexample to claim C8: one pending (+1, +1) delta whose SELECT
throws inside the per-operation try/catch; the error is swallowed, the
transaction still commits, the queue is cleared — and durable storage is
unchanged, so the delta was applied zero times, not at least once. -/
theorem C8_counterexample_swallowed_error :
    c8St.pendingOperations = [("u", ⟨1, 1, some "d", false⟩)] ∧
    flushPendingOperationsE c8St c8Db ⟨5, "M"⟩ (fun _ => OpOutcome.failBefore) true =
      (⟨[("u", ⟨1, 1, ⟨0, "M"⟩, true⟩)], []⟩, c8Db) ∧
    (flushPendingOperationsE c8St c8Db ⟨5, "M"⟩
        (fun _ => OpOutcome.failBefore) true).2.custom_domains =
      [⟨"d", "u", "verified", 2, 3, "M"⟩] := by
  exact ⟨rfl, rfl, rfl⟩

/-- Amended claim C8: the flush clears the pending queue only when the
commit succeeds, and a failed transaction leaves both the queue and durable
storage unchanged for the next cycle; with every per-operation query
succeeding (the normal-operation run, identical to the modelled
`flushPendingOperations`) a queued delta is applied to its target row with
`GREATEST(_, 0)` clamping.  Delivery is however not at-least-once: each
operation's queries run in their own try/catch whose error is swallowed, so
an operation whose query fails is skipped — or half-applied, its daily reset
committed without its delta — while the commit still succeeds and the whole
queue, including the unapplied delta, is cleared and lost. -/
theorem C8_amended_flush_commit_semantics (st : RateLimitState) (db : Db) (now : JsDate)
    (outcomes : String → OpOutcome) :
    flushPendingOperationsE st db now outcomes false = (st, db) ∧
    (flushPendingOperationsE st db now outcomes true).1.pendingOperations = [] ∧
    flushPendingOperations st db now true =
      flushPendingOperationsE st db now (fun _ => OpOutcome.ok) true ∧
    (∀ (u : String) (op : PendingOp) (row : DomainRow),
      st.pendingOperations = [(u, op)] → op.resetDaily = false →
      op.domainId = some row.id → db.custom_domains = [row] →
      row.user_id = u → row.status = "verified" →
      0 ≤ row.daily_count → 0 ≤ row.total_count →
      outcomes u = OpOutcome.ok →
      (flushPendingOperationsE st db now outcomes true).2.custom_domains =
        [{ row with daily_count := max (row.daily_count + op.dailyDelta) 0,
                    total_count := max (row.total_count + op.totalDelta) 0 }]) ∧
    (∀ (u : String) (op : PendingOp),
      st.pendingOperations = [(u, op)] → outcomes u = OpOutcome.failBefore →
      (flushPendingOperationsE st db now outcomes true).2 = db) ∧
    (∀ (u : String) (op : PendingOp) (row : DomainRow),
      st.pendingOperations = [(u, op)] → db.custom_domains = [row] →
      row.user_id = u → row.status = "verified" → op.resetDaily = true →
      outcomes u = OpOutcome.failAfterReset →
      (flushPendingOperationsE st db now outcomes true).2 = dbResetDaily db u now) := by
  refine ⟨?_, ?_, flushPendingOperations_eq_allOk st db now true, ?_, ?_, ?_⟩
  · unfold flushPendingOperationsE
    split
    · rfl
    · rfl
  · unfold flushPendingOperationsE
    split
    · rename_i hemp
      exact List.isEmpty_iff.mp hemp
    · rfl
  · intro u op row hpend hreset hdom hrows huser hstatus hd ht houtcome
    have hne : st.pendingOperations.isEmpty = false := by
      rw [hpend]; rfl
    unfold flushPendingOperationsE
    rw [hne]
    simp only [Bool.false_eq_true, if_false, if_true, hpend, List.foldl]
    rw [houtcome]
    simp only [applyOpE]
    unfold applyOp
    have hver : verifiedDomainsOf db u = [row] := by
      simp [verifiedDomainsOf, hrows, huser, hstatus]
    rw [hver]
    simp only [hdom, Option.getD_some, hreset, Bool.false_eq_true, if_false]
    by_cases hz : op.dailyDelta ≠ 0 ∨ op.totalDelta ≠ 0
    · rw [if_pos hz]
      simp [dbApplyDelta, hrows]
    · rw [if_neg hz]
      push_neg at hz
      obtain ⟨hz1, hz2⟩ := hz
      rw [hrows, hz1, hz2]
      have hm1 : max (row.daily_count + 0) 0 = row.daily_count := by omega
      have hm2 : max (row.total_count + 0) 0 = row.total_count := by omega
      rw [hm1, hm2]
  · intro u op hpend houtcome
    have hne : st.pendingOperations.isEmpty = false := by
      rw [hpend]; rfl
    unfold flushPendingOperationsE
    rw [hne]
    simp only [Bool.false_eq_true, if_false, if_true, hpend, List.foldl]
    rw [houtcome]
    rfl
  · intro u op row hpend hrows huser hstatus hreset houtcome
    have hne : st.pendingOperations.isEmpty = false := by
      rw [hpend]; rfl
    unfold flushPendingOperationsE
    rw [hne]
    simp only [Bool.false_eq_true, if_false, if_true, hpend, List.foldl]
    rw [houtcome]
    simp only [applyOpE]
    have hver : verifiedDomainsOf db u = [row] := by
      simp [verifiedDomainsOf, hrows, huser, hstatus]
    rw [hver]
    simp [hreset]

/-- Witness for the amended C8: the concrete (+1, +1) delta is kept verbatim
on a failed commit, applied with clamping when its queries succeed, and lost
(database unchanged, queue cleared) when its query fails. -/
theorem C8_amended_flush_commit_semantics_witness :
    flushPendingOperationsE c8St c8Db ⟨5, "M"⟩ (fun _ => OpOutcome.ok) false = (c8St, c8Db) ∧
    (flushPendingOperationsE c8St c8Db ⟨5, "M"⟩ (fun _ => OpOutcome.ok) true).1.pendingOperations = [] ∧
    (flushPendingOperationsE c8St c8Db ⟨5, "M"⟩ (fun _ => OpOutcome.ok) true).2.custom_domains =
      [⟨"d", "u", "verified", max (2 + 1) 0, max (3 + 1) 0, "M"⟩] ∧
    (flushPendingOperationsE c8St c8Db ⟨5, "M"⟩
        (fun _ => OpOutcome.failBefore) true).1.pendingOperations = [] ∧
    (flushPendingOperationsE c8St c8Db ⟨5, "M"⟩ (fun _ => OpOutcome.failBefore) true).2 = c8Db := by
  have h1 := C8_amended_flush_commit_semantics c8St c8Db ⟨5, "M"⟩ (fun _ => OpOutcome.ok)
  have h2 := C8_amended_flush_commit_semantics c8St c8Db ⟨5, "M"⟩ (fun _ => OpOutcome.failBefore)
  exact ⟨h1.1, h1.2.1,
    h1.2.2.2.1 "u" ⟨1, 1, some "d", false⟩ ⟨"d", "u", "verified", 2, 3, "M"⟩
      rfl rfl rfl rfl rfl rfl (by decide) (by decide) rfl,
    h2.2.1,
    h2.2.2.2.2.1 "u" ⟨1, 1, some "d", false⟩ rfl rfl⟩

theorem cacheNonneg_insert {m : List (String × UsageData)} {k : String} {v : UsageData}
    (hm : ∀ p ∈ m, 0 ≤ p.2.totalCount) (hv : 0 ≤ v.totalCount) :
    ∀ p ∈ JsMap.set m k v, 0 ≤ p.2.totalCount := by
  intro p hp
  rcases JsMap.mem_set hp with h | h
  · rw [h]; exact hv
  · exact hm p h

theorem doDailyReset_nonneg (st : RateLimitState) (u : String) (now : JsDate)
    (data : Option UsageData) (h : cacheNonneg st)
    (hd : 0 ≤ (data.map UsageData.totalCount).getD 0) :
    0 ≤ (doDailyReset st u now data).1.totalCount ∧
    cacheNonneg (doDailyReset st u now data).2 := by
  constructor
  · simpa [doDailyReset, resetNewData] using hd
  · intro p hp
    simp only [doDailyReset] at hp
    rcases JsMap.mem_set hp with h1 | h1
    · rw [h1]; simpa [resetNewData] using hd
    · exact h p h1

/-- The rollover returns and stores a record with a non-negative total. -/
theorem resetDailyIfNeeded_nonneg (st : RateLimitState) (u : String) (now : JsDate)
    (h : cacheNonneg st) :
    0 ≤ (resetDailyIfNeeded st u now).1.totalCount ∧
    cacheNonneg (resetDailyIfNeeded st u now).2 := by
  cases hf : JsMap.find st.users u with
  | some d =>
    simp only [resetDailyIfNeeded, hf]
    split
    · exact ⟨h (u, d) (JsMap.find_mem hf), h⟩
    · exact doDailyReset_nonneg st u now (some d)
        h (by simpa using h (u, d) (JsMap.find_mem hf))
  | none =>
    simp only [resetDailyIfNeeded, hf]
    exact doDailyReset_nonneg st u now none h (by simp)

theorem rlCleanup_nonneg (st : RateLimitState) (now : JsDate) (h : cacheNonneg st) :
    cacheNonneg (rlCleanup st now) := by
  intro p hp
  simp only [rlCleanup] at hp
  exact h p (List.mem_filter.mp hp).1

theorem getUserUsage_nonneg (st : RateLimitState) (u : String) (now : JsDate) (r10 : Bool)
    (h : cacheNonneg st) :
    0 ≤ (getUserUsage st u now r10).1.totalCount ∧
    cacheNonneg (getUserUsage st u now r10).2 := by
  unfold getUserUsage
  have h0 : cacheNonneg (if r10 then rlCleanup st now else st) := by
    split
    · exact rlCleanup_nonneg st now h
    · exact h
  exact resetDailyIfNeeded_nonneg _ u now h0

theorem incrementUserUsage_nonneg (st : RateLimitState) (u d : String) (now : JsDate)
    (r10 : Bool) (h : cacheNonneg st) :
    cacheNonneg (incrementUserUsage st u d now r10).2 := by
  obtain ⟨h1, h2⟩ := getUserUsage_nonneg st u now r10 h
  intro p hp
  simp only [incrementUserUsage, addPendingOperation] at hp
  rcases JsMap.mem_set hp with hh | hh
  · rw [hh]
    simp only
    omega
  · exact h2 p hh

theorem decrementUserUsage_nonneg (st : RateLimitState) (u d : String) (now : JsDate)
    (r10 : Bool) (h : cacheNonneg st) :
    cacheNonneg (decrementUserUsage st u d now r10).2 := by
  obtain ⟨h1, h2⟩ := getUserUsage_nonneg st u now r10 h
  by_cases hpos : 0 < (getUserUsage st u now r10).1.totalCount
  · intro p hp
    simp only [decrementUserUsage, if_pos hpos, addPendingOperation] at hp
    rcases JsMap.mem_set hp with hh | hh
    · rw [hh]
      simp only
      omega
    · exact h2 p hh
  · intro p hp
    simp only [decrementUserUsage, if_neg hpos] at hp
    exact h2 p hp

theorem flush_users (st : RateLimitState) (db : Db) (now : JsDate) (ok : Bool) :
    (flushPendingOperations st db now ok).1.users = st.users := by
  unfold flushPendingOperations
  split
  · rfl
  · split <;> rfl

theorem dbResetDaily_nonneg (db : Db) (u : String) (now : JsDate) (h : dbNonneg db) :
    dbNonneg (dbResetDaily db u now) := by
  intro row hrow
  simp only [dbResetDaily, List.mem_map] at hrow
  obtain ⟨r0, hr0, hmap⟩ := hrow
  subst hmap
  split
  · exact ⟨le_refl 0, (h r0 hr0).2⟩
  · exact h r0 hr0

theorem dbApplyDelta_nonneg (db : Db) (tid : String) (dd td : Int) (h : dbNonneg db) :
    dbNonneg (dbApplyDelta db tid dd td) := by
  intro row hrow
  simp only [dbApplyDelta, List.mem_map] at hrow
  obtain ⟨r0, hr0, hmap⟩ := hrow
  subst hmap
  split
  · exact ⟨le_max_right _ _, le_max_right _ _⟩
  · exact h r0 hr0

theorem applyOp_nonneg (db : Db) (u : String) (op : PendingOp) (now : JsDate)
    (h : dbNonneg db) : dbNonneg (applyOp db u op now) := by
  unfold applyOp
  split
  · exact h
  · have h1 : dbNonneg (if op.resetDaily then dbResetDaily db u now else db) := by
      split
      · exact dbResetDaily_nonneg db u now h
      · exact h
    dsimp only
    split
    · exact dbApplyDelta_nonneg _ _ _ _ h1
    · exact h1

theorem flushFold_nonneg (l : List (String × PendingOp)) (db : Db) (now : JsDate)
    (h : dbNonneg db) :
    dbNonneg (l.foldl (fun acc p => applyOp acc p.1 p.2 now) db) := by
  induction l generalizing db with
  | nil => exact h
  | cons p rest ih => exact ih _ (applyOp_nonneg _ _ _ _ h)

theorem rlStep_preserves (op : RlOp) (s : RateLimitState × Db)
    (h1 : cacheNonneg s.1) (h2 : dbNonneg s.2) :
    cacheNonneg (rlStep op s).1 ∧ dbNonneg (rlStep op s).2 := by
  cases op with
  | increment u d now r => exact ⟨incrementUserUsage_nonneg _ _ _ _ _ h1, h2⟩
  | decrement u d now r => exact ⟨decrementUserUsage_nonneg _ _ _ _ _ h1, h2⟩
  | reset u now => exact ⟨(resetDailyIfNeeded_nonneg _ _ _ h1).2, h2⟩
  | flush now ok =>
    constructor
    · intro p hp
      rw [show (rlStep (.flush now ok) s).1.users = s.1.users from flush_users s.1 s.2 now ok] at hp
      exact h1 p hp
    · show dbNonneg (flushPendingOperations s.1 s.2 now ok).2
      unfold flushPendingOperations
      split
      · exact h2
      · split
        · exact flushFold_nonneg _ _ _ h2
        · exact h2
  | clean now => exact ⟨rlCleanup_nonneg _ _ h1, h2⟩

/-- Claim C10: the cached `totalCount` values stay non-negative under any
sequence of increments, decrements, rollovers, flushes and cleanups, and the
flushed database values stay non-negative thanks to the `GREATEST` clamps;
moreover a decrement with `totalCount = 0` performs no write at all: its
result is exactly the underlying `getUserUsage` read. -/
theorem C10_nonneg_invariant :
    (∀ (ops : List RlOp) (st : RateLimitState) (db : Db),
      cacheNonneg st → dbNonneg db →
      cacheNonneg (rlRun ops (st, db)).1 ∧ dbNonneg (rlRun ops (st, db)).2) ∧
    (∀ (st : RateLimitState) (u d : String) (now : JsDate) (r10 : Bool),
      (getUserUsage st u now r10).1.totalCount = 0 →
      decrementUserUsage st u d now r10 = getUserUsage st u now r10) := by
  constructor
  · intro ops
    induction ops with
    | nil =>
      intro st db h1 h2
      exact ⟨h1, h2⟩
    | cons op rest ih =>
      intro st db h1 h2
      have hstep := rlStep_preserves op (st, db) h1 h2
      have hrec := ih (rlStep op (st, db)).1 (rlStep op (st, db)).2 hstep.1 hstep.2
      simpa [rlRun, List.foldl] using hrec
  · intro st u d now r10 h
    have hng : ¬ 0 < (getUserUsage st u now r10).1.totalCount := by omega
    simp only [decrementUserUsage, if_neg hng]

/-- Witness for C10 at an empty store plus one increment, and a concrete
zero-total decrement. -/
theorem C10_nonneg_invariant_witness :
    (cacheNonneg (rlRun [RlOp.increment "u" "d" ⟨0, "Mon"⟩ false] (⟨[], []⟩, ⟨[]⟩)).1 ∧
     dbNonneg (rlRun [RlOp.increment "u" "d" ⟨0, "Mon"⟩ false] (⟨[], []⟩, ⟨[]⟩)).2) ∧
    (getUserUsage ⟨[], []⟩ "u" ⟨0, "Mon"⟩ false).1.totalCount = 0 ∧
    decrementUserUsage ⟨[], []⟩ "u" "d" ⟨0, "Mon"⟩ false =
      getUserUsage ⟨[], []⟩ "u" ⟨0, "Mon"⟩ false := by
  have hc : cacheNonneg (⟨[], []⟩ : RateLimitState) := fun p hp => by cases hp
  have hd : dbNonneg (⟨[]⟩ : Db) := fun r hr => by cases hr
  exact ⟨C10_nonneg_invariant.1 [RlOp.increment "u" "d" ⟨0, "Mon"⟩ false] ⟨[], []⟩ ⟨[]⟩ hc hd,
    by rfl,
    C10_nonneg_invariant.2 ⟨[], []⟩ "u" "d" ⟨0, "Mon"⟩ false (by rfl)⟩

end Spec2Proof
